import Mathlib

/-!
Shallow embedding of the MCP-CostBot repository (src/standard_mcp_server.py,
src/ai_assistant.py, src/mcp_client.py, src/app.py) and proofs about the
frozen specification claims.

Python strings are modelled as `List Char` (sequences of code points);
billing amounts (Python floats obtained from `float(...)`) are modelled as
rationals `ℚ`; the billing source is modelled as an `Except`-valued input:
`.ok` carries the structured payload the source code reads out of the boto3
response, `.error` carries the message of an exception raised by the call
(the `str(e)` that the `except` handler interpolates).

The rational operations from Batteries are restored to their definitional
reducibility so that concrete runs of the embedded code can be settled by
kernel evaluation.
-/

set_option allowUnsafeReducibility true
attribute [semireducible] Rat.add Rat.sub Rat.mul Rat.inv

set_option maxRecDepth 8000

namespace MCPCostBot

/-- Character-list form of a string literal (Python `str` values are modelled
as `List Char` throughout). -/
def str (s : String) : List Char := s.toList

/-- Model of Python's substring test `pat in s`. -/
def containsL (pat : List Char) : List Char → Bool
  | [] => pat.isEmpty
  | c :: rest => pat.isPrefixOf (c :: rest) || containsL pat rest

/-- Split around the first occurrence of `sep`: `some (before, after)` when
`sep` occurs, `none` otherwise. -/
def splitFirst (sep : List Char) : List Char → Option (List Char × List Char)
  | [] => if sep.isEmpty then some ([], []) else none
  | c :: rest =>
    if sep.isPrefixOf (c :: rest) then some ([], (c :: rest).drop sep.length)
    else
      match splitFirst sep rest with
      | some (a, b) => some (c :: a, b)
      | none => none

/-- Element 1 of Python's `s.split(sep)`: the text strictly between the first
and the second occurrence of `sep` (up to the end when `sep` occurs once);
`none` when `sep` does not occur (index 1 would not exist). -/
def pySplitIndex1 (sep s : List Char) : Option (List Char) :=
  match splitFirst sep s with
  | none => none
  | some (_, rest) =>
    match splitFirst sep rest with
    | some (a, _) => some a
    | none => some rest

/-- Decimal digits of a natural number (Python `str(n)`). -/
def natDigits (n : ℕ) : List Char := Nat.toDigits 10 n

/-- Two-digit zero padding, as in `strftime` month and day fields. -/
def pad2 (n : ℕ) : List Char := if n < 10 then '0' :: natDigits n else natDigits n

/-- Four-digit zero padding, as in `strftime` year fields. -/
def pad4 (n : ℕ) : List Char :=
  if n < 10 then '0' :: '0' :: '0' :: natDigits n
  else if n < 100 then '0' :: '0' :: natDigits n
  else if n < 1000 then '0' :: natDigits n
  else natDigits n

/-- Numeric value of a run of decimal digit characters (Python `int(s)`). -/
def digitsToNat (ds : List Char) : ℕ := ds.foldl (fun acc c => acc * 10 + (c.toNat - 48)) 0

/-- Floor of a rational, computed on the normalised numerator/denominator. -/
def ratFloor (q : ℚ) : ℤ := Int.fdiv q.num (Int.ofNat q.den)

/-- Hundredths of `|q|`, rounded to nearest: digit source for `f"{q:.2f}"`. -/
def centsMag (q : ℚ) : ℕ := (ratFloor (|q| * 100 + 1/2)).toNat

/-- Magnitude part of a two-decimal rendering. -/
def fmtMag2 (q : ℚ) : List Char :=
  natDigits (centsMag q / 100) ++ '.' :: pad2 (centsMag q % 100)

/-- Model of Python `f"{q:.2f}"`. -/
def fmtFixed2 (q : ℚ) : List Char := (if q < 0 then ['-'] else []) ++ fmtMag2 q

/-- Model of Python `f"{q:+.2f}"` (always-signed, two decimals). -/
def fmtSign2 (q : ℚ) : List Char := (if q < 0 then ['-'] else ['+']) ++ fmtMag2 q

/-- Tenths of `|q|`, rounded to nearest: digit source for `f"{q:+.1f}"`. -/
def tenthsMag (q : ℚ) : ℕ := (ratFloor (|q| * 10 + 1/2)).toNat

/-- Model of Python `f"{q:+.1f}"` (always-signed, one decimal). -/
def fmtSign1 (q : ℚ) : List Char :=
  (if q < 0 then ['-'] else ['+']) ++ natDigits (tenthsMag q / 10) ++ '.' :: natDigits (tenthsMag q % 10)

/-- Stable insertion into a list sorted descending by `key`: the new element
goes after all entries whose key is at least as large, matching the stable
placement of Python's `list.sort(key=..., reverse=True)`. -/
def insertByDesc {α : Type} (key : α → ℚ) (x : α) : List α → List α
  | [] => [x]
  | y :: rest => if key x ≤ key y then y :: insertByDesc key x rest else x :: y :: rest

/-- Stable descending sort by `key` (model of `list.sort(key=..., reverse=True)`). -/
def sortByDesc {α : Type} (key : α → ℚ) (l : List α) : List α :=
  l.foldl (fun acc x => insertByDesc key x acc) []

/-- One entry of the `changes` list built by `get_cost_comparisons`
(`(item, baseline, comparison, change, percent_change)`). -/
structure ComparisonRow where
  key : String
  baseline : ℚ
  comparison : ℚ
  delta : ℚ
  percentChange : ℚ
deriving DecidableEq, Repr

/-- Python `dict.get(k, 0)` on the per-dimension cost mapping. -/
def lookupD (m : List (String × ℚ)) (k : String) : ℚ :=
  match m.find? (fun p => p.1 == k) with
  | some p => p.2
  | none => 0

/-- `set(baseline_costs.keys()) | set(comparison_costs.keys())`: the union of
the keys of both mappings (iteration order of a Python set is unspecified;
the sorted sequence below does not depend on it for the stated claims). -/
def unionKeys (b c : List (String × ℚ)) : List String :=
  (b.map Prod.fst ++ c.map Prod.fst).dedup

/-- The row `get_cost_comparisons` computes for one key of the union:
`change = comparison - baseline`; `percent_change = (change/baseline)*100`
when `baseline > 0`, else `100` when `comparison > 0`, else `0`. -/
def mkRow (b c : List (String × ℚ)) (k : String) : ComparisonRow :=
  ⟨k, lookupD b k, lookupD c k, lookupD c k - lookupD b k,
    if 0 < lookupD b k then (lookupD c k - lookupD b k) / lookupD b k * 100
    else if 0 < lookupD c k then 100 else 0⟩

/-- The full `changes` sequence of `get_cost_comparisons` after
`changes.sort(key=lambda x: abs(x[3]), reverse=True)`. -/
def comparisonRows (b c : List (String × ℚ)) : List ComparisonRow :=
  sortByDesc (fun r => |r.delta|) ((unionKeys b c).map (mkRow b c))

/-- The rows that the rendering loop of `get_cost_comparisons` actually emits:
`for ... in changes[:10]: if abs(change) > 0.01: ...` — the first ten of the
sorted sequence, restricted to those with `|delta| > 0.01`. -/
def renderedDrivers (b c : List (String × ℚ)) : List ComparisonRow :=
  ((comparisonRows b c).take 10).filter (fun r => 1/100 < |r.delta|)

/-- The text block the comparison loop appends for one rendered row. -/
def rowBlock (r : ComparisonRow) : List Char :=
  str "  " ++ r.key.toList ++ str ":\n    기준: $" ++ fmtFixed2 r.baseline ++
  str " → 비교: $" ++ fmtFixed2 r.comparison ++ str "\n    변화: $" ++ fmtSign2 r.delta ++
  str " (" ++ fmtSign1 r.percentChange ++ str "%)\n\n"

/-- The ranked-rows section of `get_cost_comparisons`' output (everything the
row loop appends after the section marker line). -/
def rowsSection (b c : List (String × ℚ)) : List Char :=
  ((renderedDrivers b c).map rowBlock).flatten

/-- The literal section marker line `"📊 주요 변화 (절대값 기준):\n"` that
`get_cost_drivers` splits on. -/
def comparisonMarker : List Char := '📊' :: str " 주요 변화 (절대값 기준):\n"

/-- The fixed header of `get_cost_comparisons`' output (built before the
marker line). -/
def comparisonsHeader (bs be cs ce : List Char) : List Char :=
  str "비용 비교 분석:\n기준 기간: " ++ bs ++ str " ~ " ++ be ++
  str "\n비교 기간: " ++ cs ++ str " ~ " ++ ce ++ str "\n\n"

/-- Success-path output of `get_cost_comparisons`. The two cost-map arguments
are the `baseline_costs`/`comparison_costs` dictionaries the source builds
from the first time bucket of each billing response. -/
def comparisonsOutput (bs be cs ce : List Char) (b c : List (String × ℚ)) : List Char :=
  comparisonsHeader bs be cs ce ++ comparisonMarker ++ rowsSection b c

/-- `get_cost_comparisons`: the baseline billing call runs first; an exception
from either call is caught and converted to the formatted error string. -/
def get_cost_comparisons (bs be cs ce : List Char)
    (bResp cResp : Except (List Char) (List (String × ℚ))) : List Char :=
  match bResp with
  | .error e => str "비용 비교 분석 중 오류가 발생했습니다: " ++ e
  | .ok b =>
    match cResp with
    | .error e => str "비용 비교 분석 중 오류가 발생했습니다: " ++ e
    | .ok c => comparisonsOutput bs be cs ce b c

/-- The fixed header `get_cost_drivers` prepends before the re-emitted
section. -/
def driversHeader (bs be cs ce : List Char) : List Char :=
  str "비용 변화 주요 원인 분석:\n기준 기간: " ++ bs ++ str " ~ " ++ be ++
  str "\n비교 기간: " ++ cs ++ str " ~ " ++ ce ++ str "\n\n💡 주요 비용 변화 동인:\n"

/-- `get_cost_drivers`: runs `get_cost_comparisons` and re-emits
`comparison_result.split(marker)[1]` when the marker occurs, else a fixed
fallback message. Its own `except` clause is unreachable in this model (no
operation in its body raises). -/
def get_cost_drivers (bs be cs ce : List Char)
    (bResp cResp : Except (List Char) (List (String × ℚ))) : List Char :=
  driversHeader bs be cs ce ++
  (match pySplitIndex1 comparisonMarker (get_cost_comparisons bs be cs ce bResp cResp) with
   | some sec => sec
   | none => str "데이터를 분석할 수 없습니다.")

/-- A proleptic-Gregorian calendar date, the model of Python `datetime.date`
(the date part of `datetime.now()`). -/
structure Date where
  year : ℕ
  month : ℕ
  day : ℕ
deriving DecidableEq, Repr

/-- Gregorian leap-year rule, as implemented by Python `datetime`. -/
def isLeap (y : ℕ) : Bool := y % 4 == 0 && (y % 100 != 0 || y % 400 == 0)

/-- Number of days in a month of a given year. -/
def daysInMonth (y m : ℕ) : ℕ :=
  if m = 2 then (if isLeap y then 29 else 28)
  else if m = 4 ∨ m = 6 ∨ m = 9 ∨ m = 11 then 30
  else 31

/-- The calendar day before `d` (one step of `timedelta(days=1)` subtraction). -/
def predDay (d : Date) : Date :=
  if 2 ≤ d.day then ⟨d.year, d.month, d.day - 1⟩
  else if 2 ≤ d.month then ⟨d.year, d.month - 1, daysInMonth d.year (d.month - 1)⟩
  else ⟨d.year - 1, 12, 31⟩

/-- `d - timedelta(days=k)`. -/
def subDays (d : Date) : ℕ → Date
  | 0 => d
  | k + 1 => subDays (predDay d) k

/-- The calendar day after `d`. -/
def succDay (d : Date) : Date :=
  if d.day < daysInMonth d.year d.month then ⟨d.year, d.month, d.day + 1⟩
  else if d.month < 12 then ⟨d.year, d.month + 1, 1⟩
  else ⟨d.year + 1, 1, 1⟩

/-- `d + timedelta(days=k)`. -/
def addDays (d : Date) : ℕ → Date
  | 0 => d
  | k + 1 => addDays (succDay d) k

/-- `d.replace(day=1)`. -/
def firstOfMonth (d : Date) : Date := ⟨d.year, d.month, 1⟩

/-- First day of the month after `d`'s month, rolling the year at December
(the `if today.month == 12` branch of the source). -/
def nextMonthFirst (d : Date) : Date :=
  if d.month = 12 then ⟨d.year + 1, 1, 1⟩ else ⟨d.year, d.month + 1, 1⟩

/-- First day of the calendar month immediately preceding `d`'s month, rolling
the year at January (the `if today.month == 1` branch of `ai_assistant.py`). -/
def precedingMonthFirst (d : Date) : Date :=
  if d.month = 1 then ⟨d.year - 1, 12, 1⟩ else ⟨d.year, d.month - 1, 1⟩

/-- `d.strftime('%Y-%m-%d')`. -/
def fmtDate (d : Date) : List Char := pad4 d.year ++ '-' :: pad2 d.month ++ '-' :: pad2 d.day

/-- `mcp_client.get_last_n_months_dates`: start is the first of the month hit
by stepping `32*n` days back from the first of the current month and
truncating to day 1; end is the first of the current month. The same
expressions appear inline in `get_service_costs`/`get_regional_costs`. -/
def get_last_n_months_dates (today : Date) (n : ℕ) : List Char × List Char :=
  (fmtDate (firstOfMonth (subDays (firstOfMonth today) (32 * n))), fmtDate (firstOfMonth today))

/-- `mcp_client.get_current_month_dates`: first of the current month up to the
first of the following month. -/
def get_current_month_dates (today : Date) : List Char × List Char :=
  (fmtDate (firstOfMonth today), fmtDate (nextMonthFirst today))

/-- One entry of `ResultsByTime` as read by the grouped renderers: the bucket's
period strings and its `Groups` as `(Keys[0], float(amount))` pairs. -/
structure PeriodGroups where
  pstart : List Char
  pend : List Char
  groups : List (List Char × ℚ)
deriving DecidableEq, Repr

/-- The entries the grouped loops keep: `if amount > 0: append(...)`. -/
def eligibleGroups (gs : List (List Char × ℚ)) : List (List Char × ℚ) :=
  gs.filter (fun g => 0 < g.2)

/-- The per-period service list actually rendered: positive amounts, sorted
descending by amount, truncated by `services[:10]`. -/
def shownServices (gs : List (List Char × ℚ)) : List (List Char × ℚ) :=
  (sortByDesc (fun g => g.2) (eligibleGroups gs)).take 10

/-- One rendered service line. -/
def serviceLine (g : List Char × ℚ) : List Char :=
  str "  💰 " ++ g.1 ++ str ": $" ++ fmtFixed2 g.2 ++ str "\n"

/-- The block `get_service_costs` renders for one time bucket. -/
def servicePeriodBlock (p : PeriodGroups) : List Char :=
  str "📅 기간: " ++ p.pstart ++ str " ~ " ++ p.pend ++ str "\n" ++
  ((shownServices p.groups).map serviceLine).flatten ++ str "\n"

/-- `get_service_costs`. -/
def get_service_costs (today : Date) (months_back : ℕ)
    (resp : Except (List Char) (List PeriodGroups)) : List Char :=
  match resp with
  | .error e => str "서비스별 비용 조회 중 오류가 발생했습니다: " ++ e
  | .ok periods =>
    let dates := get_last_n_months_dates today months_back
    str "서비스별 비용 (" ++ dates.1 ++ str " ~ " ++ dates.2 ++ str "):\n\n" ++
    (periods.map servicePeriodBlock).flatten

/-- The per-period region list actually rendered: positive amounts, sorted
descending by amount — with no truncation. -/
def shownRegions (gs : List (List Char × ℚ)) : List (List Char × ℚ) :=
  sortByDesc (fun g => g.2) (eligibleGroups gs)

/-- One rendered region line. -/
def regionLine (g : List Char × ℚ) : List Char :=
  str "  🌍 " ++ g.1 ++ str ": $" ++ fmtFixed2 g.2 ++ str "\n"

/-- The block `get_regional_costs` renders for one time bucket. -/
def regionPeriodBlock (p : PeriodGroups) : List Char :=
  str "📅 기간: " ++ p.pstart ++ str " ~ " ++ p.pend ++ str "\n" ++
  ((shownRegions p.groups).map regionLine).flatten ++ str "\n"

/-- `get_regional_costs`. -/
def get_regional_costs (today : Date) (months_back : ℕ)
    (resp : Except (List Char) (List PeriodGroups)) : List Char :=
  match resp with
  | .error e => str "리전별 비용 조회 중 오류가 발생했습니다: " ++ e
  | .ok periods =>
    let dates := get_last_n_months_dates today months_back
    str "리전별 비용 (" ++ dates.1 ++ str " ~ " ++ dates.2 ++ str "):\n\n" ++
    (periods.map regionPeriodBlock).flatten

/-- One entry of `ResultsByTime` as read by `get_cost_and_usage`: each group
carries the requested metric's `(amount, unit)` when present in its
`Metrics` dict; `total` is the bucket's `Total[metric]` when present. -/
structure UsagePeriod where
  pstart : List Char
  pend : List Char
  groups : List (List Char × Option (ℚ × List Char))
  total : Option (ℚ × List Char)
deriving DecidableEq, Repr

/-- The grouped entries `get_cost_and_usage` keeps: metric present and
`amount > 0`. -/
def eligibleUsage (gs : List (List Char × Option (ℚ × List Char))) :
    List (List Char × ℚ × List Char) :=
  gs.filterMap (fun g =>
    match g.2 with
    | some (a, u) => if 0 < a then some (g.1, a, u) else none
    | none => none)

/-- The per-period detail list actually rendered: eligible entries sorted
descending by amount, truncated by `groups[:15]`. -/
def shownUsage (gs : List (List Char × Option (ℚ × List Char))) :
    List (List Char × ℚ × List Char) :=
  (sortByDesc (fun g => g.2.1) (eligibleUsage gs)).take 15

/-- One rendered detail line (usage metrics lose the `$` prefix). -/
def usageLine (metric : List Char) (g : List Char × ℚ × List Char) : List Char :=
  if metric = str "UsageQuantity" then
    str "  📊 " ++ g.1 ++ str ": " ++ fmtFixed2 g.2.1 ++ str " " ++ g.2.2 ++ str "\n"
  else
    str "  💰 " ++ g.1 ++ str ": $" ++ fmtFixed2 g.2.1 ++ str " " ++ g.2.2 ++ str "\n"

/-- The block `get_cost_and_usage` renders for one time bucket. -/
def usagePeriodBlock (metric : List Char) (p : UsagePeriod) : List Char :=
  str "📅 기간: " ++ p.pstart ++ str " ~ " ++ p.pend ++ str "\n" ++
  (if p.groups.isEmpty then
    match p.total with
    | some (a, u) =>
      if metric = str "UsageQuantity" then str "  📊 총 사용량: " ++ fmtFixed2 a ++ str " " ++ u ++ str "\n"
      else str "  💰 총 비용: $" ++ fmtFixed2 a ++ str " " ++ u ++ str "\n"
    | none => []
   else ((shownUsage p.groups).map (usageLine metric)).flatten) ++ str "\n"

/-- `get_cost_and_usage`: empty date strings are filled with the default
window (first of month two `32`-day steps back, up to first of month). -/
def get_cost_and_usage (today : Date)
    (start_date end_date granularity group_by metric : List Char)
    (resp : Except (List Char) (List UsagePeriod)) : List Char :=
  match resp with
  | .error e => str "상세 비용 및 사용량 조회 중 오류가 발생했습니다: " ++ e
  | .ok periods =>
    let ed := if end_date.isEmpty then fmtDate (firstOfMonth today) else end_date
    let sd := if start_date.isEmpty then fmtDate (firstOfMonth (subDays (firstOfMonth today) 64)) else start_date
    str "상세 비용 및 사용량 데이터 (" ++ sd ++ str " ~ " ++ ed ++ str "):\n메트릭: " ++ metric ++
    str ", 그룹화: " ++ group_by ++ str ", 세분화: " ++ granularity ++ str "\n\n" ++
    (periods.map (usagePeriodBlock metric)).flatten

/-- One entry of `DimensionValues` (`Value` plus its `Attributes` pairs). -/
structure DimValue where
  value : List Char
  attributes : List (List Char × List Char)
deriving DecidableEq, Repr

/-- Python `f"{i:2d}"`: right-aligned in width two. -/
def fmtIndex2 (i : ℕ) : List Char := if i < 10 then ' ' :: natDigits i else natDigits i

/-- The block rendered for one dimension value at 1-based index `i`. -/
def dimEntryBlock (i : ℕ) (dv : DimValue) : List Char :=
  fmtIndex2 i ++ str ". " ++ dv.value ++ str "\n" ++
  (dv.attributes.map (fun a => str "     " ++ a.1 ++ str ": " ++ a.2 ++ str "\n")).flatten

/-- The trailer `get_dimension_values` appends when more than twenty values
exist: it states the total count and that only the top twenty are shown. -/
def dimTrailer (total : ℕ) : List Char :=
  str "\n... 총 " ++ natDigits total ++ str "개 중 상위 20개만 표시"

/-- `get_dimension_values`: `.ok none` models a response without a
`DimensionValues` key; empty date arguments are both replaced by the
90-days-back window. -/
def get_dimension_values (today : Date) (dimension start_date end_date : List Char)
    (resp : Except (List Char) (Option (List DimValue))) : List Char :=
  match resp with
  | .error e => str "차원 값 조회 중 오류가 발생했습니다: " ++ e
  | .ok vals? =>
    let ed := if start_date.isEmpty || end_date.isEmpty then fmtDate today else end_date
    let sd := if start_date.isEmpty || end_date.isEmpty then fmtDate (subDays today 90) else start_date
    str "사용 가능한 " ++ dimension ++ str " 값들 (" ++ sd ++ str " ~ " ++ ed ++ str "):\n\n" ++
    (match vals? with
     | none => str "사용 가능한 값이 없습니다."
     | some vals =>
       ((List.enumFrom 1 (vals.take 20)).map (fun p => dimEntryBlock p.1 p.2)).flatten ++
       (if 20 < vals.length then dimTrailer vals.length else []))

/-- `get_current_month_cost`: the payload is `ResultsByTime` reduced to each
bucket's `Total['BlendedCost']` as `(float(amount), unit)`. -/
def get_current_month_cost (today : Date)
    (resp : Except (List Char) (List (ℚ × List Char))) : List Char :=
  match resp with
  | .error e => str "비용 조회 중 오류가 발생했습니다: " ++ e
  | .ok results =>
    match results with
    | [] => str "현재 월 비용 데이터를 찾을 수 없습니다."
    | (amount, unit) :: _ =>
      let dates := get_current_month_dates today
      str "현재 월(" ++ dates.1 ++ str " ~ " ++ dates.2 ++ str ") 총 비용: $" ++
      fmtFixed2 amount ++ str " " ++ unit

/-- One entry of `ForecastResultsByTime`. -/
structure ForecastEntry where
  pstart : List Char
  pend : List Char
  mean : ℚ
deriving DecidableEq, Repr

/-- One rendered forecast line. -/
def forecastLine (f : ForecastEntry) : List Char :=
  str "📈 " ++ f.pstart ++ str " ~ " ++ f.pend ++ str ": $" ++ fmtFixed2 f.mean ++ str " (예상)\n"

/-- `get_cost_forecast`: window is today through `30*months_ahead` days ahead. -/
def get_cost_forecast (today : Date) (months_ahead : ℕ)
    (resp : Except (List Char) (List ForecastEntry)) : List Char :=
  match resp with
  | .error e => str "비용 예측 조회 중 오류가 발생했습니다: " ++ e
  | .ok fs =>
    str "비용 예측 (" ++ fmtDate today ++ str " ~ " ++ fmtDate (addDays today (30 * months_ahead)) ++
    str "):\n\n" ++ (fs.map forecastLine).flatten ++
    str "\n💡 총 예상 비용: $" ++ fmtFixed2 ((fs.map ForecastEntry.mean).foldl (· + ·) 0)

/-- English weekday names indexed by Sakamoto's value (0 = Sunday), the output
of `strftime('%A')`. -/
def weekdayNames : List (List Char) :=
  [str "Sunday", str "Monday", str "Tuesday", str "Wednesday",
   str "Thursday", str "Friday", str "Saturday"]

/-- Sakamoto month offsets. -/
def sakamotoOffsets : List ℕ := [0, 3, 2, 5, 0, 3, 5, 1, 4, 6, 2, 4]

/-- Day-of-week of a Gregorian date, 0 = Sunday (`-y/100` replaced by the
mod-7-equivalent `+6*(y/100)` to stay in `ℕ`). -/
def dayOfWeek (d : Date) : ℕ :=
  let y := if d.month < 3 then d.year - 1 else d.year
  (y + y / 4 + 6 * (y / 100) + y / 400 + sakamotoOffsets.getD (d.month - 1) 0 + d.day) % 7

/-- `get_today_date`: pure rendering of the current date and time plus the
suggested analysis ranges (the "지난 월" start reuses the 32-day step). -/
def get_today_date (today : Date) (hh mo ss : ℕ) : List Char :=
  str "현재 날짜 정보:\n📅 날짜: " ++ fmtDate today ++
  str "\n🕐 시간: " ++ pad2 hh ++ ':' :: pad2 mo ++ ':' :: pad2 ss ++
  str "\n📆 요일: " ++ weekdayNames.getD (dayOfWeek today) [] ++
  str "\n📊 월: " ++ natDigits today.month ++ str "월\n📈 년도: " ++ natDigits today.year ++
  str "년\n\n💡 비용 분석용 날짜 범위:\n   현재 월 시작: " ++ fmtDate (firstOfMonth today) ++
  str "\n   지난 월: " ++ fmtDate (firstOfMonth (subDays (firstOfMonth today) 32)) ++
  str " ~ " ++ fmtDate (firstOfMonth today) ++ str "\n"

/-- An argument value in an `Intent`'s argument dict: a string or an integer. -/
inductive ArgVal where
  | s : List Char → ArgVal
  | n : ℕ → ArgVal
deriving DecidableEq, Repr

/-- The `intent` dict built by `extract_intent_and_parameters`. -/
structure Intent where
  function : String
  arguments : List (String × ArgVal)
deriving DecidableEq, Repr

/-- The four date arguments shared by the comparison and drivers branches of
the router: previous calendar month as baseline, current month as comparison
(exact month arithmetic with year rollover, not the 32-day step). -/
def comparisonDateArgs (today : Date) : List (String × ArgVal) :=
  let cms := fmtDate (firstOfMonth today)
  let lms := if today.month = 1 then fmtDate ⟨today.year - 1, 12, 1⟩
             else fmtDate ⟨today.year, today.month - 1, 1⟩
  let lme := if today.month = 1 then fmtDate (firstOfMonth today) else cms
  let cme := if today.month = 12 then fmtDate ⟨today.year + 1, 1, 1⟩
             else fmtDate ⟨today.year, today.month + 1, 1⟩
  [("baseline_start", .s lms), ("baseline_end", .s lme),
   ("comparison_start", .s cms), ("comparison_end", .s cme)]

/-- Model of `re.findall(r'(\d+)개?월', q)` restricted to its first capture:
the digit run of the leftmost match of "digits, optional 개, then 월"
(backtracking inside the digit run cannot help, since a shorter run is
followed by a digit, which is neither 개 nor 월). -/
def findMonths : List Char → Option ℕ
  | [] => none
  | c :: rest =>
    if c.isDigit then
      match (c :: rest).dropWhile Char.isDigit with
      | '개' :: '월' :: _ => some (digitsToNat ((c :: rest).takeWhile Char.isDigit))
      | '월' :: _ => some (digitsToNat ((c :: rest).takeWhile Char.isDigit))
      | _ => findMonths rest
    else findMonths rest

/-- `extract_intent_and_parameters` from `ai_assistant.py`: the ordered
keyword-rule chain over the lower-cased query. -/
def extract_intent_and_parameters (user_query : List Char) (today : Date) : Intent :=
  let ql := user_query.map Char.toLower
  if containsL (str "현재") ql || containsL (str "이번 달") ql then
    ⟨"get_current_month_cost", []⟩
  else if containsL (str "서비스") ql && (containsL (str "비교") ql || containsL (str "변화") ql) then
    ⟨"get_cost_comparisons", comparisonDateArgs today⟩
  else if containsL (str "원인") ql || containsL (str "왜") ql ||
          (containsL (str "변화") ql && containsL (str "분석") ql) then
    ⟨"get_cost_drivers", comparisonDateArgs today⟩
  else if containsL (str "서비스") ql then
    if containsL (str "어떤") ql || containsL (str "목록") ql then
      ⟨"get_dimension_values", [("dimension", .s (str "SERVICE"))]⟩
    else
      ⟨"get_service_costs",
        match findMonths ql with
        | some n => [("months_back", .n n)]
        | none => []⟩
  else if containsL (str "리전") ql then
    if containsL (str "어떤") ql || containsL (str "목록") ql then
      ⟨"get_dimension_values", [("dimension", .s (str "REGION"))]⟩
    else ⟨"get_regional_costs", []⟩
  else if containsL (str "예측") ql || containsL (str "전망") ql then
    ⟨"get_cost_forecast", []⟩
  else if containsL (str "상세") ql || containsL (str "자세") ql then
    if containsL (str "6월") ql && containsL (str "7월") ql then
      ⟨"get_cost_and_usage",
        [("start_date", .s (str "2025-06-01")), ("end_date", .s (str "2025-08-01"))]⟩
    else if containsL (str "일별") ql then
      ⟨"get_cost_and_usage", [("granularity", .s (str "DAILY"))]⟩
    else ⟨"get_cost_and_usage", []⟩
  else if containsL (str "날짜") ql || containsL (str "현재") ql then
    ⟨"get_today_date", []⟩
  else ⟨"get_current_month_cost", []⟩

/-- One conversation turn (`{"role": ..., "content": ...}`). -/
structure ChatMessage where
  role : String
  content : String
deriving DecidableEq, Repr

/-- `CostAnalysisAssistant.add_to_history`: append, then keep only the last
ten entries when the cap is exceeded. -/
def add_to_history (history : List ChatMessage) (m : ChatMessage) : List ChatMessage :=
  if 10 < (history ++ [m]).length then
    (history ++ [m]).drop ((history ++ [m]).length - 10)
  else history ++ [m]

/-- `app.add_message_to_history`: append, then keep only the last
`MAX_CHAT_HISTORY = 50` entries when the cap is exceeded. -/
def add_message_to_history (messages : List ChatMessage) (m : ChatMessage) : List ChatMessage :=
  if 50 < (messages ++ [m]).length then
    (messages ++ [m]).drop ((messages ++ [m]).length - 50)
  else messages ++ [m]

/-- Eleven comparison-period entries, all of whose deltas against an empty
baseline exceed the 0.01 threshold. -/
def elevenComparison : List (String × ℚ) :=
  [("K01", 1), ("K02", 2), ("K03", 3), ("K04", 4), ("K05", 5), ("K06", 6),
   ("K07", 7), ("K08", 8), ("K09", 9), ("K10", 10), ("K11", 11)]

/-- Twenty-one dimension values, one more than the rendering cap. -/
def cxDimValues : List DimValue := List.replicate 21 ⟨str "V", []⟩

/-- Eleven positive service amounts, one more than the rendering cap. -/
def elevenServices : List (List Char × ℚ) :=
  [(str "S11", 11), (str "S10", 10), (str "S09", 9), (str "S08", 8), (str "S07", 7),
   (str "S06", 6), (str "S05", 5), (str "S04", 4), (str "S03", 3), (str "S02", 2),
   (str "S01", 1)]

/-- The same service list with the smallest entry removed. -/
def tenServices : List (List Char × ℚ) := elevenServices.take 10

theorem mem_insertByDesc {α : Type} (key : α → ℚ) (x z : α) (l : List α) :
    z ∈ insertByDesc key x l ↔ z = x ∨ z ∈ l := by
  induction l with
  | nil => simp [insertByDesc]
  | cons y rest ih =>
    simp only [insertByDesc]
    split
    · simp only [List.mem_cons, ih]
      tauto
    · simp only [List.mem_cons]

theorem pairwise_insertByDesc {α : Type} (key : α → ℚ) (x : α) (l : List α)
    (h : l.Pairwise (fun a b => key b ≤ key a)) :
    (insertByDesc key x l).Pairwise (fun a b => key b ≤ key a) := by
  induction l with
  | nil => simp [insertByDesc]
  | cons y rest ih =>
    rcases List.pairwise_cons.mp h with ⟨hy, hrest⟩
    simp only [insertByDesc]
    split
    case isTrue hxy =>
      refine List.pairwise_cons.mpr ⟨?_, ih hrest⟩
      intro z hz
      rcases (mem_insertByDesc key x z rest).mp hz with rfl | hz'
      · exact hxy
      · exact hy z hz'
    case isFalse hxy =>
      refine List.pairwise_cons.mpr ⟨?_, List.pairwise_cons.mpr ⟨hy, hrest⟩⟩
      intro z hz
      rcases List.mem_cons.mp hz with rfl | hz'
      · exact le_of_lt (not_le.mp hxy)
      · exact le_trans (hy z hz') (le_of_lt (not_le.mp hxy))

theorem foldl_insertByDesc_pairwise {α : Type} (key : α → ℚ) (l : List α) :
    ∀ acc : List α, acc.Pairwise (fun a b => key b ≤ key a) →
      (l.foldl (fun acc x => insertByDesc key x acc) acc).Pairwise (fun a b => key b ≤ key a) := by
  induction l with
  | nil => intro acc h; simpa using h
  | cons x rest ih => intro acc h; exact ih _ (pairwise_insertByDesc key x acc h)

theorem sortByDesc_pairwise {α : Type} (key : α → ℚ) (l : List α) :
    (sortByDesc key l).Pairwise (fun a b => key b ≤ key a) :=
  foldl_insertByDesc_pairwise key l [] (by simp)

theorem foldl_insertByDesc_mem {α : Type} (key : α → ℚ) (z : α) (l : List α) :
    ∀ acc : List α, (z ∈ l.foldl (fun acc x => insertByDesc key x acc) acc ↔ z ∈ acc ∨ z ∈ l) := by
  induction l with
  | nil => intro acc; simp
  | cons x rest ih =>
    intro acc
    simp only [List.foldl_cons, ih, mem_insertByDesc, List.mem_cons]
    tauto

theorem mem_sortByDesc {α : Type} (key : α → ℚ) (z : α) (l : List α) :
    z ∈ sortByDesc key l ↔ z ∈ l := by
  unfold sortByDesc
  rw [foldl_insertByDesc_mem]
  simp

theorem length_insertByDesc {α : Type} (key : α → ℚ) (x : α) (l : List α) :
    (insertByDesc key x l).length = l.length + 1 := by
  induction l with
  | nil => rfl
  | cons y rest ih =>
    simp only [insertByDesc]
    split
    · simp [ih]
    · simp

theorem foldl_insertByDesc_length {α : Type} (key : α → ℚ) (l : List α) :
    ∀ acc : List α,
      (l.foldl (fun acc x => insertByDesc key x acc) acc).length = acc.length + l.length := by
  induction l with
  | nil => intro acc; simp
  | cons x rest ih =>
    intro acc
    simp only [List.foldl_cons, ih, length_insertByDesc, List.length_cons]
    omega

theorem length_sortByDesc {α : Type} (key : α → ℚ) (l : List α) :
    (sortByDesc key l).length = l.length := by
  unfold sortByDesc
  rw [foldl_insertByDesc_length]
  simp

/-- C1 (amended). For every key of the union, the comparison engine emits a
row with `delta = comparison - baseline`, and `percentChange` equal to
`100 * delta / baseline` when `baseline > 0`, to `100` when `baseline ≤ 0`
and `comparison > 0`, and to `0` otherwise — the `100 * delta / baseline`
formula is applied only to positive baselines, not to negative ones. The
three concrete examples of the claim hold as stated. -/
theorem comparisonRow_percentChange_spec (b c : List (String × ℚ)) (k : String)
    (hk : k ∈ unionKeys b c) :
    (∃ r ∈ comparisonRows b c, r.key = k ∧ r.baseline = lookupD b k ∧
        r.comparison = lookupD c k ∧ r.delta = r.comparison - r.baseline ∧
        r.percentChange = (if 0 < r.baseline then 100 * r.delta / r.baseline
          else if 0 < r.comparison then 100 else 0)) ∧
    comparisonRows [] [] = [] ∧
    comparisonRows [("A", 10)] [] = [⟨"A", 10, 0, -10, -100⟩] ∧
    comparisonRows [] [("A", 10)] = [⟨"A", 0, 10, 10, 100⟩] := by
  refine ⟨?_, by decide, by decide, by decide⟩
  refine ⟨mkRow b c k, (mem_sortByDesc _ _ _).mpr (List.mem_map_of_mem _ hk), rfl, rfl, rfl, rfl, ?_⟩
  show (if 0 < lookupD b k then (lookupD c k - lookupD b k) / lookupD b k * 100
      else if 0 < lookupD c k then 100 else 0) =
    (if 0 < lookupD b k then 100 * (lookupD c k - lookupD b k) / lookupD b k
      else if 0 < lookupD c k then 100 else 0)
  split_ifs with h1 h2
  · ring
  · rfl
  · rfl

/-- Witness for C1 at the concrete input `compare({"A": 10}, {})`. -/
theorem comparisonRow_percentChange_spec_witness :
    ∃ r ∈ comparisonRows [("A", 10)] [], r.key = "A" ∧ r.baseline = lookupD [("A", 10)] "A" ∧
      r.comparison = lookupD [] "A" ∧ r.delta = r.comparison - r.baseline ∧
      r.percentChange = (if 0 < r.baseline then 100 * r.delta / r.baseline
        else if 0 < r.comparison then 100 else 0) :=
  (comparisonRow_percentChange_spec [("A", 10)] [] "A" (by decide)).1

/-- C1 counterexample: on `compare({"A": -10}, {"A": 5})` the engine emits
`percentChange = 100`, not the claimed `100 * delta / baseline = -150`,
although the baseline is neither zero nor positive-case-exempt. -/
theorem comparisonRow_negative_baseline_cx :
    ∃ r ∈ comparisonRows [("A", -10)] [("A", 5)],
      r.baseline ≠ 0 ∧ ¬(r.baseline = 0 ∧ r.comparison = 0) ∧
      r.percentChange = 100 ∧ r.percentChange ≠ 100 * r.delta / r.baseline := by decide

/-- C2 (amended). The full `changes` sequence is sorted descending by
`|delta|`, and the rendered "top drivers" section contains exactly those rows
among the first ten of the sorted sequence whose `|delta|` exceeds `0.01`
(the `[:10]` truncation is applied before the threshold filter). Scenario 4
holds: only the EC2 row is rendered, the S3 row stays in the full sequence. -/
theorem comparisonRows_sorted_rendered_spec :
    (∀ b c, (comparisonRows b c).Pairwise (fun r s => |s.delta| ≤ |r.delta|)) ∧
    (∀ b c r, r ∈ renderedDrivers b c ↔ r ∈ (comparisonRows b c).take 10 ∧ 1/100 < |r.delta|) ∧
    comparisonRows [("EC2", 241/2), ("S3", 4)] [("EC2", 80), ("S3", 4)] =
      [⟨"EC2", 241/2, 80, -81/2, -8100/241⟩, ⟨"S3", 4, 4, 0, 0⟩] ∧
    renderedDrivers [("EC2", 241/2), ("S3", 4)] [("EC2", 80), ("S3", 4)] =
      [⟨"EC2", 241/2, 80, -81/2, -8100/241⟩] := by
  refine ⟨fun b c => sortByDesc_pairwise _ _, fun b c r => ?_, by decide, by decide⟩
  simp [renderedDrivers, List.mem_filter]

/-- C9. Both history buffers are bounded FIFO queues: each append yields a
sequence whose length is capped (10 for the assistant's history, 50 for the
session history), which is a suffix of the previous contents followed by the
new entry (so retained entries are the most recent ones, in append order,
and eviction removes only the oldest); and a run of appends from the empty
history retains exactly the last ten messages in order. -/
theorem history_bounded_fifo_spec :
    ∀ (hist : List ChatMessage) (m : ChatMessage),
      (add_to_history hist m).length = min (hist.length + 1) 10 ∧
      add_to_history hist m <:+ hist ++ [m] ∧
      (add_message_to_history hist m).length = min (hist.length + 1) 50 ∧
      add_message_to_history hist m <:+ hist ++ [m] ∧
      ∀ ms : List ChatMessage, List.foldl add_to_history [] ms = ms.drop (ms.length - 10) := by
  intro hist m
  refine ⟨?_, ?_, ?_, ?_, ?_⟩
  · unfold add_to_history
    split_ifs with h <;>
      simp only [List.length_drop, List.length_append, List.length_cons, List.length_nil] at * <;>
      omega
  · unfold add_to_history
    split_ifs with h
    · exact List.drop_suffix _ _
    · exact List.suffix_refl _
  · unfold add_message_to_history
    split_ifs with h <;>
      simp only [List.length_drop, List.length_append, List.length_cons, List.length_nil] at * <;>
      omega
  · unfold add_message_to_history
    split_ifs with h
    · exact List.drop_suffix _ _
    · exact List.suffix_refl _
  · intro ms
    induction ms using List.reverseRecOn with
    | nil => rfl
    | append_singleton ms m2 ih =>
      rw [List.foldl_append, List.foldl_cons, List.foldl_nil, ih]
      rcases le_or_lt ms.length 9 with h | h
      · have h0 : ms.length - 10 = 0 := by omega
        rw [h0, List.drop_zero]
        unfold add_to_history
        rw [if_neg (by simp only [List.length_append, List.length_cons, List.length_nil]; omega)]
        have h1 : (ms ++ [m2]).length - 10 = 0 := by
          simp only [List.length_append, List.length_cons, List.length_nil]; omega
        rw [h1, List.drop_zero]
      · unfold add_to_history
        have hX : (ms.drop (ms.length - 10)).length = 10 := by
          simp only [List.length_drop]; omega
        rw [if_pos (by
          simp only [List.length_append, List.length_cons, List.length_nil, hX]; omega)]
        have h2 : (ms.drop (ms.length - 10) ++ [m2]).length - 10 = 1 := by
          simp only [List.length_append, List.length_cons, List.length_nil, hX]
        have h3 : (ms ++ [m2]).length - 10 = ms.length - 9 := by
          simp only [List.length_append, List.length_cons, List.length_nil]; omega
        rw [h2, h3]
        rw [List.drop_append_of_le_length
          (show 1 ≤ (ms.drop (ms.length - 10)).length by rw [hX]; omega)]
        rw [List.drop_append_of_le_length (show ms.length - 9 ≤ ms.length by omega)]
        rw [List.drop_drop]
        have h4 : ms.length - 10 + 1 = ms.length - 9 := by omega
        rw [h4]

/-- C10 (implicit). In the grouped listings of `get_service_costs`,
`get_regional_costs` and grouped `get_cost_and_usage`, every entry whose
amount is zero or negative is silently omitted: every rendered entry has a
strictly positive amount, and the rendered lists are unchanged when the
nonpositive entries are removed from the input. -/
theorem positive_amount_filter_spec :
    (∀ gs x, x ∈ shownServices gs → 0 < x.2) ∧
    (∀ gs x, x ∈ shownRegions gs → 0 < x.2) ∧
    (∀ us x, x ∈ shownUsage us → 0 < x.2.1) ∧
    (∀ gs, shownServices gs = shownServices (eligibleGroups gs)) ∧
    (∀ gs, shownRegions gs = shownRegions (eligibleGroups gs)) := by
  have hmem : ∀ (gs : List (List Char × ℚ)) x, x ∈ eligibleGroups gs → 0 < x.2 := by
    intro gs x hx
    simp only [eligibleGroups, List.mem_filter, decide_eq_true_eq] at hx
    exact hx.2
  have hmemU : ∀ (us : List (List Char × Option (ℚ × List Char))) x,
      x ∈ eligibleUsage us → 0 < x.2.1 := by
    intro us x hx
    simp only [eligibleUsage, List.mem_filterMap] at hx
    obtain ⟨⟨nm, opt⟩, _, hfa⟩ := hx
    rcases opt with _ | ⟨q, u⟩
    · simp at hfa
    · dsimp at hfa
      split_ifs at hfa with hq
      cases hfa
      exact hq
  have hidem : ∀ gs : List (List Char × ℚ),
      eligibleGroups (eligibleGroups gs) = eligibleGroups gs := by
    intro gs
    apply List.filter_eq_self.mpr
    intro a ha
    exact (List.mem_filter.mp ha).2
  refine ⟨?_, ?_, ?_, ?_, ?_⟩
  · intro gs x hx
    exact hmem gs x ((mem_sortByDesc _ _ _).mp (List.mem_of_mem_take hx))
  · intro gs x hx
    exact hmem gs x ((mem_sortByDesc _ _ _).mp hx)
  · intro us x hx
    exact hmemU us x ((mem_sortByDesc _ _ _).mp (List.mem_of_mem_take hx))
  · intro gs
    unfold shownServices
    rw [hidem]
  · intro gs
    unfold shownRegions
    rw [hidem]

/-- Witness for C10 at a singleton positive service entry. -/
theorem positive_amount_filter_spec_witness :
    (0:ℚ) < ((str "EC2", (5:ℚ)) : List Char × ℚ).2 :=
  positive_amount_filter_spec.1 [(str "EC2", 5)] (str "EC2", 5) (by decide)

theorem splitFirst_append_of_head_notMem {m0 : Char} {sep' A B : List Char} (h : m0 ∉ A) :
    splitFirst (m0 :: sep') (A ++ B) =
      (splitFirst (m0 :: sep') B).map (fun p => (A ++ p.1, p.2)) := by
  induction A with
  | nil =>
    cases hB : splitFirst (m0 :: sep') B with
    | none => simp [hB]
    | some p => simp [hB]
  | cons a A' ih =>
    have hne0 : m0 ≠ a := fun he => h (by rw [he]; exact List.mem_cons_self a A')
    have hm0 : m0 ∉ A' := fun hm => h (List.mem_cons_of_mem a hm)
    have hcond : (m0 :: sep').isPrefixOf (a :: (A' ++ B)) = false := by
      show (m0 == a && sep'.isPrefixOf (A' ++ B)) = false
      rw [beq_eq_false_iff_ne.mpr hne0, Bool.false_and]
    rw [List.cons_append]
    simp only [splitFirst, hcond, Bool.false_eq_true, if_false]
    rw [ih hm0]
    cases hB : splitFirst (m0 :: sep') B with
    | none => simp
    | some p => simp

theorem splitFirst_self_append (sep B : List Char) (h : sep ≠ []) :
    splitFirst sep (sep ++ B) = some ([], B) := by
  cases sep with
  | nil => exact absurd rfl h
  | cons s0 sep' =>
    have hpre : (s0 :: sep').isPrefixOf (s0 :: (sep' ++ B)) = true :=
      List.isPrefixOf_iff_prefix.mpr (by rw [← List.cons_append]; exact List.prefix_append _ _)
    have hdrop : (s0 :: (sep' ++ B)).drop (s0 :: sep').length = B := by
      rw [← List.cons_append]
      exact List.drop_left _ _
    rw [List.cons_append]
    simp only [splitFirst, hpre, if_true, hdrop]

theorem splitFirst_eq_none_of_head_notMem {m0 : Char} (sep' : List Char) {s : List Char}
    (h : m0 ∉ s) : splitFirst (m0 :: sep') s = none := by
  induction s with
  | nil => rfl
  | cons a rest ih =>
    have hne0 : m0 ≠ a := fun he => h (by rw [he]; exact List.mem_cons_self a rest)
    have hcond : (m0 :: sep').isPrefixOf (a :: rest) = false := by
      show (m0 == a && sep'.isPrefixOf rest) = false
      rw [beq_eq_false_iff_ne.mpr hne0, Bool.false_and]
    simp only [splitFirst, hcond, Bool.false_eq_true, if_false]
    rw [ih (fun hm => h (List.mem_cons_of_mem a hm))]

theorem pySplitIndex1_marker_concat (A R : List Char) (hA : '📊' ∉ A) (hR : '📊' ∉ R) :
    pySplitIndex1 comparisonMarker (A ++ (comparisonMarker ++ R)) = some R := by
  have h1 : splitFirst comparisonMarker (A ++ (comparisonMarker ++ R)) = some (A, R) := by
    simp only [comparisonMarker]
    rw [splitFirst_append_of_head_notMem hA]
    rw [splitFirst_self_append _ _ (List.cons_ne_nil _ _)]
    simp
  have h2 : splitFirst comparisonMarker R = none := by
    simp only [comparisonMarker]
    exact splitFirst_eq_none_of_head_notMem _ hR
  unfold pySplitIndex1
  rw [h1]
  dsimp only
  rw [h2]

/-- C3. With identical date arguments and identical per-dimension cost data,
the section `get_cost_drivers` emits after its "drivers" heading is exactly
the ranked-rows section of `get_cost_comparisons`' output: the drivers
operation does no computation on the cost data beyond splitting the
comparison text at the section marker and re-emitting that section. (The
side conditions say the marker's leading character does not occur in the
date arguments or in the rendered rows, which holds for all real inputs.) -/
theorem get_cost_drivers_reemits_comparison_section
    (bs be cs ce : List Char) (b c : List (String × ℚ))
    (h1 : '📊' ∉ bs) (h2 : '📊' ∉ be) (h3 : '📊' ∉ cs) (h4 : '📊' ∉ ce)
    (h5 : '📊' ∉ rowsSection b c) :
    get_cost_drivers bs be cs ce (.ok b) (.ok c) =
      driversHeader bs be cs ce ++ rowsSection b c ∧
    get_cost_comparisons bs be cs ce (.ok b) (.ok c) =
      comparisonsHeader bs be cs ce ++ (comparisonMarker ++ rowsSection b c) := by
  have hA : '📊' ∉ comparisonsHeader bs be cs ce := by
    unfold comparisonsHeader
    simp only [List.mem_append, not_or]
    exact ⟨⟨⟨⟨⟨⟨⟨⟨by decide, h1⟩, by decide⟩, h2⟩, by decide⟩, h3⟩, by decide⟩, h4⟩, by decide⟩
  have hmain : pySplitIndex1 comparisonMarker
      (comparisonsHeader bs be cs ce ++ (comparisonMarker ++ rowsSection b c)) =
      some (rowsSection b c) := pySplitIndex1_marker_concat _ _ hA h5
  have hout : get_cost_comparisons bs be cs ce (.ok b) (.ok c) =
      comparisonsHeader bs be cs ce ++ (comparisonMarker ++ rowsSection b c) := by
    show comparisonsOutput bs be cs ce b c = _
    unfold comparisonsOutput
    rw [List.append_assoc]
  refine ⟨?_, hout⟩
  unfold get_cost_drivers
  rw [hout, hmain]

/-- Witness for C3 at the Scenario 4 cost maps and July-2025 month windows. -/
theorem get_cost_drivers_reemits_comparison_section_witness :
    get_cost_drivers (str "2025-06-01") (str "2025-07-01") (str "2025-07-01") (str "2025-08-01")
        (.ok [("EC2", 241/2), ("S3", 4)]) (.ok [("EC2", 80), ("S3", 4)]) =
      driversHeader (str "2025-06-01") (str "2025-07-01") (str "2025-07-01") (str "2025-08-01") ++
        rowsSection [("EC2", 241/2), ("S3", 4)] [("EC2", 80), ("S3", 4)] :=
  (get_cost_drivers_reemits_comparison_section _ _ _ _ _ _ (by decide) (by decide) (by decide)
    (by decide) (by decide)).1

/-- C8 (amended). None of the retrieval operations propagates a failure of the
billing source: each returns a formatted string. Seven of them append the
root-cause message to their error text (it is a suffix of the output), but
`get_cost_drivers` does not: when the underlying comparison fails, its output
is a fixed fallback independent of the root cause. (`get_today_date` performs
no billing call, so it has no failure path to model.) -/
theorem gateway_errors_no_throw_spec :
    ∀ (d : Date) (mb ma : ℕ) (sd ed gr gb me dim bs be cs ce e : List Char)
      (cResp : Except (List Char) (List (String × ℚ))),
      e <:+ get_current_month_cost d (.error e) ∧
      e <:+ get_service_costs d mb (.error e) ∧
      e <:+ get_regional_costs d mb (.error e) ∧
      e <:+ get_cost_forecast d ma (.error e) ∧
      e <:+ get_cost_and_usage d sd ed gr gb me (.error e) ∧
      e <:+ get_cost_comparisons bs be cs ce (.error e) cResp ∧
      e <:+ get_dimension_values d dim sd ed (.error e) ∧
      ('📊' ∉ e →
        get_cost_drivers bs be cs ce (.error e) cResp =
          driversHeader bs be cs ce ++ str "데이터를 분석할 수 없습니다.") := by
  intro d mb ma sd ed gr gb me dim bs be cs ce e cResp
  refine ⟨⟨_, rfl⟩, ⟨_, rfl⟩, ⟨_, rfl⟩, ⟨_, rfl⟩, ⟨_, rfl⟩, ⟨_, rfl⟩, ⟨_, rfl⟩, ?_⟩
  intro he
  have hout : get_cost_comparisons bs be cs ce (.error e) cResp =
      str "비용 비교 분석 중 오류가 발생했습니다: " ++ e := rfl
  have hnone : splitFirst comparisonMarker
      (str "비용 비교 분석 중 오류가 발생했습니다: " ++ e) = none := by
    simp only [comparisonMarker]
    apply splitFirst_eq_none_of_head_notMem
    simp only [List.mem_append, not_or]
    exact ⟨by decide, he⟩
  unfold get_cost_drivers
  rw [hout]
  unfold pySplitIndex1
  rw [hnone]

/-- Witness for C8: a concrete failing drivers call yields the fallback. -/
theorem gateway_errors_no_throw_spec_witness :
    get_cost_drivers (str "2025-06-01") (str "2025-07-01") (str "2025-07-01") (str "2025-08-01")
        (.error (str "AccessDenied")) (.ok []) =
      driversHeader (str "2025-06-01") (str "2025-07-01") (str "2025-07-01") (str "2025-08-01") ++
        str "데이터를 분석할 수 없습니다." :=
  (gateway_errors_no_throw_spec ⟨2025, 7, 15⟩ 1 1 [] [] [] [] [] []
    (str "2025-06-01") (str "2025-07-01") (str "2025-07-01") (str "2025-08-01")
    (str "AccessDenied") (.ok [])).2.2.2.2.2.2.2 (by decide)

/-- C8 counterexample: when the billing source fails with "AccessDenied"
during a drivers call, the returned string does not contain the root-cause
message anywhere, contradicting the claim that every failure path returns a
string carrying the root cause. -/
theorem drivers_lose_root_cause_cx :
    ¬ (str "AccessDenied" <:+: get_cost_drivers (str "2025-06-01") (str "2025-07-01")
        (str "2025-07-01") (str "2025-08-01") (.error (str "AccessDenied")) (.ok [])) := by
  decide

/-- C4. Every query containing a causal marker ("원인" or "왜") that matches
no earlier rule (no current-period marker, and not the service + comparison
or change combination) routes to `get_cost_drivers` with baseline equal to
the month immediately preceding the reference month and comparison equal to
the reference month; Scenario 3 holds concretely. -/
theorem causal_query_routes_to_cost_drivers (q : List Char) (today : Date)
    (hc : containsL (str "원인") (q.map Char.toLower) = true ∨
          containsL (str "왜") (q.map Char.toLower) = true)
    (h1 : containsL (str "현재") (q.map Char.toLower) = false)
    (h2 : containsL (str "이번 달") (q.map Char.toLower) = false)
    (h3 : containsL (str "서비스") (q.map Char.toLower) = false ∨
          (containsL (str "비교") (q.map Char.toLower) = false ∧
           containsL (str "변화") (q.map Char.toLower) = false)) :
    extract_intent_and_parameters q today = ⟨"get_cost_drivers", comparisonDateArgs today⟩ ∧
    comparisonDateArgs today =
      [("baseline_start", .s (fmtDate (precedingMonthFirst today))),
       ("baseline_end", .s (fmtDate (firstOfMonth today))),
       ("comparison_start", .s (fmtDate (firstOfMonth today))),
       ("comparison_end", .s (fmtDate (nextMonthFirst today)))] ∧
    extract_intent_and_parameters (str "서비스 비용이 왜 늘었는지 원인을 분석해주세요") ⟨2025, 7, 15⟩ =
      ⟨"get_cost_drivers",
        [("baseline_start", .s (str "2025-06-01")), ("baseline_end", .s (str "2025-07-01")),
         ("comparison_start", .s (str "2025-07-01")), ("comparison_end", .s (str "2025-08-01"))]⟩ := by
  refine ⟨?_, ?_, by decide⟩
  · unfold extract_intent_and_parameters
    rcases h3 with h3 | ⟨h3a, h3b⟩
    · rcases hc with hc | hc <;> simp [h1, h2, h3, hc]
    · rcases hc with hc | hc <;> simp [h1, h2, h3a, h3b, hc]
  · simp only [comparisonDateArgs, precedingMonthFirst, nextMonthFirst, apply_ite fmtDate,
      ite_self]

/-- Witness for C4 at the Scenario 3 query and reference date 2025-07-15. -/
theorem causal_query_routes_to_cost_drivers_witness :
    extract_intent_and_parameters (str "서비스 비용이 왜 늘었는지 원인을 분석해주세요") ⟨2025, 7, 15⟩ =
      ⟨"get_cost_drivers", comparisonDateArgs ⟨2025, 7, 15⟩⟩ :=
  (causal_query_routes_to_cost_drivers (str "서비스 비용이 왜 늘었는지 원인을 분석해주세요")
    ⟨2025, 7, 15⟩ (Or.inr (by decide)) (by decide) (by decide)
    (Or.inr ⟨by decide, by decide⟩)).1

/-- C5 (amended). Every query with a service marker but no comparison, change,
causal, or qualifier marker (and matching no earlier rule) routes to
`get_service_costs`, with `months_back` set to N exactly when the leftmost
match of the pattern "digits, optional 개, then 월" yields N — the 개 is
optional in the source regex `(\d+)개?월`, so a bare `<N>월` also sets it.
Scenario 2 holds concretely. -/
theorem service_query_months_back_spec (q : List Char) (today : Date)
    (hs : containsL (str "서비스") (q.map Char.toLower) = true)
    (h1 : containsL (str "현재") (q.map Char.toLower) = false)
    (h2 : containsL (str "이번 달") (q.map Char.toLower) = false)
    (h3 : containsL (str "비교") (q.map Char.toLower) = false)
    (h4 : containsL (str "변화") (q.map Char.toLower) = false)
    (h5 : containsL (str "원인") (q.map Char.toLower) = false)
    (h6 : containsL (str "왜") (q.map Char.toLower) = false)
    (h7 : containsL (str "어떤") (q.map Char.toLower) = false)
    (h8 : containsL (str "목록") (q.map Char.toLower) = false) :
    extract_intent_and_parameters q today =
      ⟨"get_service_costs",
        match findMonths (q.map Char.toLower) with
        | some n => [("months_back", ArgVal.n n)]
        | none => []⟩ ∧
    extract_intent_and_parameters (str "지난 3개월간 서비스별 비용") ⟨2025, 7, 15⟩ =
      ⟨"get_service_costs", [("months_back", ArgVal.n 3)]⟩ := by
  refine ⟨?_, by decide⟩
  simp [extract_intent_and_parameters, hs, h1, h2, h3, h4, h5, h6, h7, h8]

/-- Witness for C5 at the Scenario 2 query. -/
theorem service_query_months_back_spec_witness :
    extract_intent_and_parameters (str "지난 3개월간 서비스별 비용") ⟨2025, 7, 15⟩ =
      ⟨"get_service_costs",
        match findMonths ((str "지난 3개월간 서비스별 비용").map Char.toLower) with
        | some n => [("months_back", ArgVal.n n)]
        | none => []⟩ :=
  (service_query_months_back_spec (str "지난 3개월간 서비스별 비용") ⟨2025, 7, 15⟩
    (by decide) (by decide) (by decide) (by decide) (by decide) (by decide) (by decide)
    (by decide) (by decide)).1

/-- C5 counterexample: the query "서비스 3월 비용" contains no "<N>개월"
pattern (the substring "개월" does not occur at all), yet the router sets
`months_back = 3`, because the source regex makes 개 optional and "3월"
matches. -/
theorem months_back_without_gae_cx :
    extract_intent_and_parameters (str "서비스 3월 비용") ⟨2025, 7, 15⟩ =
      ⟨"get_service_costs", [("months_back", ArgVal.n 3)]⟩ ∧
    containsL (str "개월") (str "서비스 3월 비용") = false := by decide

theorem subDays_one (d : Date) : subDays d 1 = predDay d := rfl

theorem subDays_add (d : Date) (a b : ℕ) : subDays d (a + b) = subDays (subDays d a) b := by
  induction a generalizing d with
  | zero =>
    rw [Nat.zero_add]
    rfl
  | succ a ih =>
    rw [Nat.succ_add]
    show subDays (predDay d) (a + b) = _
    rw [ih]
    rfl

theorem subDays_within (d : Date) (k : ℕ) (h : k < d.day) :
    subDays d k = ⟨d.year, d.month, d.day - k⟩ := by
  rcases d with ⟨y, m, day⟩
  simp only at h
  induction k generalizing day with
  | zero => simp [subDays]
  | succ k ih =>
    show subDays (predDay ⟨y, m, day⟩) k = _
    have hpred : predDay ⟨y, m, day⟩ = ⟨y, m, day - 1⟩ := by
      simp [predDay, show 2 ≤ day by omega]
    rw [hpred, ih (day - 1) (by omega)]
    simp only [Date.mk.injEq, true_and]
    omega

theorem daysInMonth_ge (y m : ℕ) : 28 ≤ daysInMonth y m := by
  unfold daysInMonth
  split_ifs <;> omega

theorem daysInMonth_le (y m : ℕ) : daysInMonth y m ≤ 31 := by
  unfold daysInMonth
  split_ifs <;> omega

theorem predDay_first_day_eq (y m : ℕ) :
    (predDay ⟨y, m, 1⟩).day =
      daysInMonth (predDay ⟨y, m, 1⟩).year (predDay ⟨y, m, 1⟩).month := by
  unfold predDay
  rw [if_neg (by show ¬ (2 ≤ (1:ℕ)); omega)]
  split_ifs with hm
  · rfl
  · rfl

theorem subDays_first_32 (y m : ℕ) :
    firstOfMonth (subDays ⟨y, m, 1⟩ 32) =
      firstOfMonth (predDay ⟨(predDay ⟨y, m, 1⟩).year, (predDay ⟨y, m, 1⟩).month, 1⟩) := by
  set p1 := predDay ⟨y, m, 1⟩ with hp1
  have hd1 : p1.day = daysInMonth p1.year p1.month := predDay_first_day_eq y m
  have hge : 28 ≤ p1.day := by rw [hd1]; exact daysInMonth_ge _ _
  have hle : p1.day ≤ 31 := by rw [hd1]; exact daysInMonth_le _ _
  set p2 := predDay ⟨p1.year, p1.month, 1⟩ with hp2
  have hd2 : p2.day = daysInMonth p2.year p2.month := predDay_first_day_eq p1.year p1.month
  have hge2 : 28 ≤ p2.day := by rw [hd2]; exact daysInMonth_ge _ _
  have step1 : subDays (⟨y, m, 1⟩ : Date) 32 = subDays p1 31 := by
    rw [show (32:ℕ) = 1 + 31 from rfl, subDays_add, subDays_one, ← hp1]
  have hday1 : p1.day - (p1.day - 1) = 1 := by omega
  have step2 : subDays p1 31 = subDays ⟨p1.year, p1.month, 1⟩ (32 - p1.day) := by
    rw [show (31:ℕ) = (p1.day - 1) + (32 - p1.day) by omega, subDays_add,
      subDays_within p1 (p1.day - 1) (by omega), hday1]
  have step3 : subDays (⟨p1.year, p1.month, 1⟩ : Date) (32 - p1.day) =
      subDays p2 (31 - p1.day) := by
    rw [show 32 - p1.day = 1 + (31 - p1.day) by omega, subDays_add, subDays_one, ← hp2]
  have step4 : subDays p2 (31 - p1.day) =
      ⟨p2.year, p2.month, p2.day - (31 - p1.day)⟩ :=
    subDays_within p2 _ (by omega)
  rw [step1, step2, step3, step4]
  rfl

theorem two_months_back_eq (d : Date) (h1 : 1 ≤ d.month) (h2 : d.month ≤ 12) :
    firstOfMonth (predDay ⟨(predDay ⟨d.year, d.month, 1⟩).year,
        (predDay ⟨d.year, d.month, 1⟩).month, 1⟩) =
      precedingMonthFirst (precedingMonthFirst d) := by
  rcases d with ⟨y, m, day⟩
  simp only at h1 h2
  rcases Nat.lt_or_ge m 3 with hm | hm
  · interval_cases m
    · simp [predDay, precedingMonthFirst, firstOfMonth]
    · simp [predDay, precedingMonthFirst, firstOfMonth]
  · have hm1 : ¬ m = 1 := by omega
    have hm2 : 2 ≤ m := by omega
    have hm3 : 2 ≤ m - 1 := by omega
    have hm4 : ¬ m - 1 = 1 := by omega
    simp [predDay, precedingMonthFirst, firstOfMonth, hm1, hm2, hm3, hm4]

/-- C6 (amended). For every reference date and every n, `monthsBack` ends at
the first day of the reference month (so its end equals `currentMonth`'s
start), and its start is the first day of the month containing the date
`32*n` days before the first of the reference month. This overshoots "exactly
n whole months": for n = 1 the start is the first day of the month TWO months
before the reference month, not one. -/
theorem months_back_end_and_overshoot_spec (d : Date) (n : ℕ)
    (h1 : 1 ≤ d.month) (h2 : d.month ≤ 12) :
    (get_last_n_months_dates d n).2 = (get_current_month_dates d).1 ∧
    (get_last_n_months_dates d n).1 =
      fmtDate (firstOfMonth (subDays (firstOfMonth d) (32 * n))) ∧
    (get_last_n_months_dates d 1).1 =
      fmtDate (precedingMonthFirst (precedingMonthFirst d)) := by
  refine ⟨rfl, rfl, ?_⟩
  exact congrArg fmtDate
    (Eq.trans (subDays_first_32 d.year d.month) (two_months_back_eq d h1 h2))

/-- Witness for C6 at reference date 2025-07-15 and n = 1. -/
theorem months_back_end_and_overshoot_spec_witness :
    (get_last_n_months_dates ⟨2025, 7, 15⟩ 1).2 = (get_current_month_dates ⟨2025, 7, 15⟩).1 ∧
    (get_last_n_months_dates ⟨2025, 7, 15⟩ 1).1 =
      fmtDate (firstOfMonth (subDays (firstOfMonth ⟨2025, 7, 15⟩) (32 * 1))) ∧
    (get_last_n_months_dates ⟨2025, 7, 15⟩ 1).1 =
      fmtDate (precedingMonthFirst (precedingMonthFirst ⟨2025, 7, 15⟩)) :=
  months_back_end_and_overshoot_spec ⟨2025, 7, 15⟩ 1 (by decide) (by decide)

/-- C6 counterexample: at reference date 2025-07-15, `monthsBack(d, 1)` starts
at 2025-05-01, not at 2025-06-01, the first day of the month exactly one
whole month before July. -/
theorem months_back_not_exact_month_cx :
    (get_last_n_months_dates ⟨2025, 7, 15⟩ 1).1 = str "2025-05-01" ∧
    (get_last_n_months_dates ⟨2025, 7, 15⟩ 1).1 ≠ str "2025-06-01" := by decide

/-- C7 (amended). The rendered listings truncate to fixed caps — ten service
entries per period, fifteen detail entries per period, ten driver rows,
twenty dimension values — and only the dimension-value listing carries a
trailer when the source holds more than its cap (stating the total count);
service and detail breakdowns are truncated silently. -/
theorem render_truncation_spec (gs : List (List Char × ℚ))
    (us : List (List Char × Option (ℚ × List Char))) (vals : List DimValue)
    (d : Date) (dim sd ed : List Char) (b c : List (String × ℚ)) :
    (shownServices gs).length = min 10 (eligibleGroups gs).length ∧
    (shownUsage us).length = min 15 (eligibleUsage us).length ∧
    (renderedDrivers b c).length ≤ 10 ∧
    (vals.take 20).length = min 20 vals.length ∧
    (20 < vals.length →
      dimTrailer vals.length <:+ get_dimension_values d dim sd ed (.ok (some vals))) := by
  refine ⟨?_, ?_, ?_, by simp [List.length_take], ?_⟩
  · unfold shownServices
    rw [List.length_take, length_sortByDesc]
  · unfold shownUsage
    rw [List.length_take, length_sortByDesc]
  · unfold renderedDrivers
    exact le_trans (List.length_filter_le _ _) (List.length_take_le _ _)
  · intro hv
    unfold get_dimension_values
    dsimp only
    rw [if_pos hv]
    exact (List.suffix_append _ _).trans (List.suffix_append _ _)

/-- Witness for C7: with twenty-one dimension values the trailer is emitted. -/
theorem render_truncation_spec_witness :
    dimTrailer cxDimValues.length <:+
      get_dimension_values ⟨2025, 7, 15⟩ (str "SERVICE") (str "2025-01-01") (str "2025-04-01")
        (.ok (some cxDimValues)) :=
  (render_truncation_spec [] [] cxDimValues ⟨2025, 7, 15⟩ (str "SERVICE") (str "2025-01-01")
    (str "2025-04-01") [] []).2.2.2.2 (by decide)

/-- C7 counterexample: a service listing with eleven positive entries renders
exactly the same text as one with only the top ten — the output carries no
trailer or any other trace of the truncated entry, contradicting the claimed
"N more truncated" trailer for service breakdowns. -/
theorem service_truncation_silent_cx :
    get_service_costs ⟨2025, 7, 15⟩ 1
        (.ok [⟨str "2025-06-01", str "2025-07-01", elevenServices⟩]) =
      get_service_costs ⟨2025, 7, 15⟩ 1
        (.ok [⟨str "2025-06-01", str "2025-07-01", tenServices⟩]) ∧
    (eligibleGroups elevenServices).length = 11 ∧
    (eligibleGroups tenServices).length = 10 := by decide

/-- C2 counterexample: with eleven comparison entries all above the threshold,
the rendered section drops the eleventh row even though its `|delta|` exceeds
`0.01`, so the rendered rows are not exactly the rows above the threshold. -/
theorem renderedDrivers_truncation_cx :
    (comparisonRows [] elevenComparison).filter (fun r => 1/100 < |r.delta|) ≠
      renderedDrivers [] elevenComparison ∧
    ((comparisonRows [] elevenComparison).filter (fun r => 1/100 < |r.delta|)).length = 11 ∧
    (renderedDrivers [] elevenComparison).length = 10 := by decide

end MCPCostBot
